import Mathlib

/-!
Verification of the `DbFlash` page adapter and the device bring-up loops of
`examples/rp2040/src/bin/ekv.rs` from `embedded-fatfs`.

The adapter is shallowly embedded: the underlying NorFlash device is an
abstract state `σ` together with explicit `read`/`write`/`erase` state-passing
functions that may fail with an error `ε` (mirroring the `NorFlash +
ReadNorFlash` trait bounds with associated error type `T::Error`).  Rust slice
indexing panics are modelled by an `Option` layer: `none` means the operation
panicked before reaching the device.  The page size `config::PAGE_SIZE` is an
external compile-time configuration constant of the `ekv` crate, so it is a
parameter `PS` of every adapter operation.
-/

/-- Model of the byte-addressed NorFlash device interface consumed by
`DbFlash` (trait bounds `NorFlash + ReadNorFlash`): state type `σ`, error type
`ε`; `read s addr n` yields the `n` bytes placed into the caller's slice,
`write s addr bytes` programs `bytes` at `addr`, `erase s from to` erases the
byte range `[from, to)`.  The device state is threaded even on failure,
mirroring `&mut self` in Rust. -/
structure DeviceOps (σ ε : Type) where
  read : σ → Nat → Nat → Except ε (List Nat) × σ
  write : σ → Nat → List Nat → Except ε Unit × σ
  erase : σ → Nat → Nat → Except ε Unit × σ

/-- State of the adapter `struct DbFlash<T> { flash: T, buffer: [u8; PAGE_SIZE] }`:
the wrapped device state plus the staging buffer contents. -/
structure DbFlash (σ : Type) where
  flash : σ
  buffer : List Nat

/-- Source: `fn page_count(&self) -> usize { 4096 }` (the line
`config::MAX_PAGE_COUNT - 1` is commented out in the source); a pure function
of `&self` returning the hard-coded constant. -/
def DbFlash.page_count {σ : Type} (_s : DbFlash σ) : Nat := 4096

/-- Source: `DbFlash::erase`: forwards to
`self.flash.erase(page_id * PAGE_SIZE, page_id * PAGE_SIZE + PAGE_SIZE)`. -/
def DbFlash.erase {σ ε : Type} (PS : Nat) (dev : DeviceOps σ ε) (s : DbFlash σ)
    (page_id : Nat) : Except ε Unit × DbFlash σ :=
  let r := dev.erase s.flash (page_id * PS) (page_id * PS + PS)
  (r.1, { s with flash := r.2 })

/-- Source: `DbFlash::read`: computes `address = page_id * PAGE_SIZE + offset`,
reads `data.len()` bytes from the device into `self.buffer[..data.len()]`
(propagating a device error with `?` before touching `data`), then copies that
staging-buffer slice into `data`.  The result triple is the Rust return value,
the final contents of the caller's `data` slice, and the final adapter state.
`none` models the slice-indexing panic of `self.buffer[..data.len()]` when
`data.len() > PAGE_SIZE`. -/
def DbFlash.read {σ ε : Type} (PS : Nat) (dev : DeviceOps σ ε) (s : DbFlash σ)
    (page_id offset : Nat) (data : List Nat) :
    Option (Except ε Unit × List Nat × DbFlash σ) :=
  if data.length ≤ PS then
    let address := page_id * PS + offset
    match dev.read s.flash address data.length with
    | (Except.error e, f) => some (Except.error e, data, { s with flash := f })
    | (Except.ok bs, f) =>
        let buf := bs ++ s.buffer.drop data.length
        some (Except.ok (), buf.take data.length, { flash := f, buffer := buf })
  else none

/-- Source: `DbFlash::write`: computes the same address, copies `data` into
`self.buffer[..data.len()]`, then issues `self.flash.write(address,
&self.buffer[..data.len()])`.  `none` models the slice-indexing panic when
`data.len() > PAGE_SIZE`. -/
def DbFlash.write {σ ε : Type} (PS : Nat) (dev : DeviceOps σ ε) (s : DbFlash σ)
    (page_id offset : Nat) (data : List Nat) :
    Option (Except ε Unit × DbFlash σ) :=
  if data.length ≤ PS then
    let address := page_id * PS + offset
    let buf := data ++ s.buffer.drop data.length
    let r := dev.write s.flash address (buf.take data.length)
    some (r.1, { flash := r.2, buffer := buf })
  else none

/-- Device-operation events, used to observe exactly which device calls an
adapter operation issues. -/
inductive DevEvent where
  | read : Nat → Nat → DevEvent
  | write : Nat → List Nat → DevEvent
  | erase : Nat → Nat → DevEvent
deriving DecidableEq, Repr

/-- Instrumentation wrapper: behaves exactly like `dev` but appends one event
per device call to a log carried in the state. -/
def traceOps {σ ε : Type} (dev : DeviceOps σ ε) : DeviceOps (σ × List DevEvent) ε where
  read := fun s a n =>
    let r := dev.read s.1 a n
    (r.1, (r.2, s.2 ++ [DevEvent.read a n]))
  write := fun s a d =>
    let r := dev.write s.1 a d
    (r.1, (r.2, s.2 ++ [DevEvent.write a d]))
  erase := fun s a b =>
    let r := dev.erase s.1 a b
    (r.1, (r.2, s.2 ++ [DevEvent.erase a b]))

/-- Pointwise update of a byte-addressed memory by a write of `d` at `a`. -/
def memWrite (m : Nat → Nat) (a : Nat) (d : List Nat) : Nat → Nat :=
  fun x => if a ≤ x ∧ x < a + d.length then d.getD (x - a) 0 else m x

/-- Pointwise update of a byte-addressed memory by an erase of `[a, b)` to the
erased pattern `0xFF`. -/
def memErase (m : Nat → Nat) (a b : Nat) : Nat → Nat :=
  fun x => if a ≤ x ∧ x < b then 255 else m x

/-- A concrete device whose reads return exactly what was last written: the
state is the byte-addressed memory itself and no operation fails. -/
def memOps : DeviceOps (Nat → Nat) Empty where
  read := fun m a n => (Except.ok ((List.range n).map fun i => m (a + i)), m)
  write := fun m a d => (Except.ok (), memWrite m a d)
  erase := fun m a b => (Except.ok (), memErase m a b)

/-- A trivial always-succeeding device reading all zeros, used to instantiate
universally quantified theorems at a concrete device. -/
def zeroOps : DeviceOps Unit Empty where
  read := fun _ _ n => (Except.ok (List.replicate n 0), ())
  write := fun _ _ _ => (Except.ok (), ())
  erase := fun _ _ _ => (Except.ok (), ())

/-- A device all of whose operations fail with the concrete error value `7`,
used to instantiate error-path theorems. -/
def failOps : DeviceOps Unit Nat where
  read := fun _ _ _ => (Except.error 7, ())
  write := fun _ _ _ => (Except.error 7, ())
  erase := fun _ _ _ => (Except.error 7, ())

/-- Negotiation-phase SPI clock: `config.frequency = 400_000` at device
construction. -/
def negotiationFrequency : Nat := 400000

/-- Operating-phase SPI clock: `config.frequency = 25_000_000`, set once after
`sd.init()` succeeds. -/
def operatingFrequency : Nat := 25000000

/-- Delay between `sd_init` attempts: `Timer::after_millis(10)`, i.e. 10 ms in
nanoseconds. -/
def sdInitDelayNs : Nat := 10 * 1000000

/-- Delay between `sd.init()` attempts: `Delay.delay_ns(5000u32)`, i.e. 5000
nanoseconds. -/
def cardInitDelayNs : Nat := 5000

/-- Source: the first bring-up loop of `main`: repeatedly `sd_init(&mut spi)`,
breaking on `Ok`, warning and delaying on `Err`.  `attempts i` tells whether
the `i`-th attempt succeeds; `fuel` bounds the number of iterations we unroll
(the Rust loop is unbounded); the result is the index of the first successful
attempt, `none` meaning the fuel ran out before any success. -/
def sd_init_loop (attempts : Nat → Bool) : Nat → Nat → Option Nat
  | 0, _ => none
  | fuel + 1, i => if attempts i then some i else sd_init_loop attempts fuel (i + 1)

/-- The SPI-device configuration state observed by the second bring-up loop:
its clock frequency and how many times `set_config` has been called on it. -/
structure CardState where
  frequency : Nat
  setConfigCount : Nat
deriving DecidableEq, Repr

/-- Source: the second bring-up loop of `main`: repeatedly `sd.init()`; on
success set the config to 25 MHz (one `set_config` call) and break; on failure
log and delay, leaving the configuration untouched.  Fuel-bounded unrolling of
the unbounded Rust loop. -/
def card_init_loop (attempts : Nat → Bool) : Nat → Nat → CardState → Option CardState
  | 0, _, _ => none
  | fuel + 1, i, s =>
    if attempts i then
      some { frequency := operatingFrequency, setConfigCount := s.setConfigCount + 1 }
    else
      card_init_loop attempts fuel (i + 1) s

/-- Taking the length of the left operand from an append returns it. -/
theorem take_append_length {α : Type} (l m : List α) : (l ++ m).take l.length = l := by
  simp

/-- Reading a list back out of itself by positions. -/
theorem range_map_getD (l : List Nat) :
    (List.range l.length).map (fun i => l.getD i 0) = l := by
  refine List.ext_getElem (by simp) ?_
  intro i h1 h2
  simp [List.getD_eq_getElem?_getD, List.getElem?_eq_getElem h2]

/-- A byte written at offset `i` of a `memWrite` is read back at `a + i`. -/
theorem memWrite_get (m : Nat → Nat) (a : Nat) (d : List Nat) (i : Nat)
    (h : i < d.length) : memWrite m a d (a + i) = d.getD i 0 := by
  unfold memWrite
  have hc : a ≤ a + i ∧ a + i < a + d.length :=
    ⟨Nat.le_add_right a i, Nat.add_lt_add_left h a⟩
  simp [hc]

/-- A device read over a freshly written region returns the written bytes. -/
theorem memWrite_readback (m : Nat → Nat) (a : Nat) (d : List Nat) :
    (List.range d.length).map (fun i => memWrite m a d (a + i)) = d := by
  have : ∀ i ∈ List.range d.length,
      memWrite m a d (a + i) = d.getD i 0 := by
    intro i hi
    exact memWrite_get m a d i (List.mem_range.mp hi)
  rw [List.map_congr_left this]
  exact range_map_getD d

/-- C1 counterexample: at the concrete scenario of the claim (page size 512,
capacity 16 MiB = 16777216 bytes), `page_count()` does not return
`16777216 / 512 = 32768`: the source hard-codes `4096`. -/
theorem c1_page_count_counterexample :
    DbFlash.page_count (⟨(), []⟩ : DbFlash Unit) ≠ 16 * 1024 * 1024 / 512 := by
  decide

/-- C1 (amended): `page_count` is a pure function of `&self` returning the
hard-coded constant `4096` for every adapter state (hence constant across all
prior operations), independent of the configured page size or any capacity. -/
theorem c1_page_count_amended {σ : Type} (s t : DbFlash σ) :
    s.page_count = 4096 ∧ s.page_count = t.page_count := ⟨rfl, rfl⟩

/-- C4: `erase(page_id)` issues exactly one device operation: the erase of the
byte range `[page_id * PS, page_id * PS + PS)`; the instrumented trace grows
by exactly that one event and the device's result is returned as is. -/
theorem c4_erase_exact_range {σ ε : Type} (PS : Nat) (dev : DeviceOps σ ε) (s : σ)
    (log : List DevEvent) (buf : List Nat) (page_id : Nat) (r : Except ε Unit) (s₁ : σ)
    (h : dev.erase s (page_id * PS) (page_id * PS + PS) = (r, s₁)) :
    DbFlash.erase PS (traceOps dev) ⟨(s, log), buf⟩ page_id
      = (r, ⟨(s₁, log ++ [DevEvent.erase (page_id * PS) (page_id * PS + PS)]), buf⟩) := by
  simp [DbFlash.erase, traceOps, h]

/-- C4 witness: concrete run on the zero device with page size 4, page 2:
exactly one erase event, of the range `[8, 12)`. -/
theorem c4_erase_exact_range_witness :
    DbFlash.erase 4 (traceOps zeroOps) ⟨((), []), [9, 9, 9, 9]⟩ 2
      = (Except.ok (), ⟨((), [DevEvent.erase 8 12]), [9, 9, 9, 9]⟩) :=
  c4_erase_exact_range 4 zeroOps () [] [9, 9, 9, 9] 2 (Except.ok ()) () rfl

/-- C9: if the underlying device read fails, `read` returns that error before
any copy into the caller's buffer: the caller's `data` is returned with
exactly its prior contents. -/
theorem c9_read_error_leaves_data {σ ε : Type} (PS : Nat) (dev : DeviceOps σ ε)
    (s : DbFlash σ) (page_id offset : Nat) (data : List Nat) (e : ε) (f₁ : σ)
    (hlen : data.length ≤ PS)
    (h : dev.read s.flash (page_id * PS + offset) data.length = (Except.error e, f₁)) :
    DbFlash.read PS dev s page_id offset data
      = some (Except.error e, data, ⟨f₁, s.buffer⟩) := by
  simp [DbFlash.read, hlen, h]

/-- C9 witness: on the always-failing device with page size 4, the caller's
buffer `[5, 5]` comes back untouched together with the device error `7`. -/
theorem c9_read_error_leaves_data_witness :
    DbFlash.read 4 failOps ⟨(), [1, 2, 3, 4]⟩ 2 1 [5, 5]
      = some (Except.error 7, [5, 5], ⟨(), [1, 2, 3, 4]⟩) :=
  c9_read_error_leaves_data 4 failOps ⟨(), [1, 2, 3, 4]⟩ 2 1 [5, 5] 7 ()
    (by decide) rfl

/-- C10: `read` and `write` slice the staging buffer only by `data.len()`,
never by `offset`: for every offset whatsoever they complete without a panic
exactly when `data.len() ≤ PAGE_SIZE`; in particular the precondition
`offset + data.len() ≤ PAGE_SIZE` is not required for the buffer accesses. -/
theorem c10_panic_free_iff {σ ε : Type} (PS : Nat) (dev : DeviceOps σ ε)
    (s : DbFlash σ) (page_id offset : Nat) (dataR dataW : List Nat) :
    ((DbFlash.read PS dev s page_id offset dataR).isSome ↔ dataR.length ≤ PS) ∧
    ((DbFlash.write PS dev s page_id offset dataW).isSome ↔ dataW.length ≤ PS) := by
  constructor
  · unfold DbFlash.read
    by_cases h : dataR.length ≤ PS
    · rcases hd : dev.read s.flash (page_id * PS + offset) dataR.length with ⟨r, f⟩
      cases r <;> simp [h, hd]
    · simp [h]
  · unfold DbFlash.write
    by_cases h : dataW.length ≤ PS
    · simp [h]
    · simp [h]

/-- C2: `read` issues exactly one device read of `data.len()` bytes at absolute
address `page_id * PS + offset`, places the bytes in the staging buffer's
prefix, and hands the caller exactly that prefix; `write` copies `data` into
the staging buffer's prefix and issues exactly one device write of that prefix
at the same absolute address. -/
theorem c2_read_write_shape {σ ε : Type} (PS : Nat) (dev : DeviceOps σ ε) (s : σ)
    (log : List DevEvent) (buf dataR dataW : List Nat) (page_id offset : Nat)
    (bs : List Nat) (s₁ s₂ : σ) (rw : Except ε Unit)
    (hR : offset + dataR.length ≤ PS) (hW : offset + dataW.length ≤ PS)
    (hread : dev.read s (page_id * PS + offset) dataR.length = (Except.ok bs, s₁))
    (hbs : bs.length = dataR.length)
    (hwrite : dev.write s (page_id * PS + offset) dataW = (rw, s₂)) :
    DbFlash.read PS (traceOps dev) ⟨(s, log), buf⟩ page_id offset dataR
      = some (Except.ok (), bs,
          ⟨(s₁, log ++ [DevEvent.read (page_id * PS + offset) dataR.length]),
            bs ++ buf.drop dataR.length⟩) ∧
    DbFlash.write PS (traceOps dev) ⟨(s, log), buf⟩ page_id offset dataW
      = some (rw,
          ⟨(s₂, log ++ [DevEvent.write (page_id * PS + offset) dataW]),
            dataW ++ buf.drop dataW.length⟩) := by
  have hlenR : dataR.length ≤ PS := le_trans (Nat.le_add_left _ _) hR
  have hlenW : dataW.length ≤ PS := le_trans (Nat.le_add_left _ _) hW
  have htakeR : (bs ++ buf.drop dataR.length).take dataR.length = bs := by
    rw [← hbs]; exact take_append_length _ _
  have htakeW : (dataW ++ buf.drop dataW.length).take dataW.length = dataW :=
    take_append_length _ _
  constructor
  · simp [DbFlash.read, hlenR, traceOps, hread, htakeR]
  · simp [DbFlash.write, hlenW, traceOps, htakeW, hwrite]

/-- C2 witness: concrete run on the zero device with page size 4, page 1,
offset 1: one read event at address 5 of 2 bytes, caller receives the staging
prefix; one write event at address 5 of the 2 copied bytes. -/
theorem c2_read_write_shape_witness :
    DbFlash.read 4 (traceOps zeroOps) ⟨((), []), [9, 9, 9, 9]⟩ 1 1 [5, 5]
      = some (Except.ok (), [0, 0], ⟨((), [DevEvent.read 5 2]), [0, 0, 9, 9]⟩) ∧
    DbFlash.write 4 (traceOps zeroOps) ⟨((), []), [9, 9, 9, 9]⟩ 1 1 [7, 8]
      = some (Except.ok (), ⟨((), [DevEvent.write 5 [7, 8]]), [7, 8, 9, 9]⟩) :=
  c2_read_write_shape 4 zeroOps () [] [9, 9, 9, 9] [5, 5] [7, 8] 1 1 [0, 0] () ()
    (Except.ok ()) (by decide) (by decide) rfl rfl rfl

/-- C3: on a device whose reads return what was last written (`memOps`), a
successful `write(page_id, offset, data)` followed by
`read(page_id, offset, buf)` with `buf.length = data.length` hands the caller
exactly `data`. -/
theorem c3_write_read_roundtrip (PS : Nat) (m : Nat → Nat) (buf0 : List Nat)
    (page_id offset : Nat) (data buf : List Nat)
    (hle : offset + data.length ≤ PS) (hbuf : buf.length = data.length) :
    ∃ s₁ : DbFlash (Nat → Nat),
      DbFlash.write PS memOps ⟨m, buf0⟩ page_id offset data
        = some (Except.ok (), s₁) ∧
      ∃ s₂ : DbFlash (Nat → Nat),
        DbFlash.read PS memOps s₁ page_id offset buf
          = some (Except.ok (), data, s₂) := by
  have hlen : data.length ≤ PS := le_trans (Nat.le_add_left _ _) hle
  have htake : (data ++ buf0.drop data.length).take data.length = data :=
    take_append_length _ _
  refine ⟨⟨memWrite m (page_id * PS + offset) data, data ++ buf0.drop data.length⟩,
    ?_, ?_⟩
  · simp [DbFlash.write, hlen, memOps, htake]
  · have hlenb : buf.length ≤ PS := hbuf ▸ hlen
    have hbytes : (List.range buf.length).map
        (fun i => memWrite m (page_id * PS + offset) data ((page_id * PS + offset) + i))
          = data := by
      rw [hbuf]; exact memWrite_readback m _ data
    have htake2 : ∀ rest : List Nat, (data ++ rest).take buf.length = data := by
      intro rest; rw [hbuf]; exact take_append_length _ _
    refine ⟨⟨memWrite m (page_id * PS + offset) data,
      data ++ (data ++ buf0.drop data.length).drop buf.length⟩, ?_⟩
    simp [DbFlash.read, hlenb, memOps, hbytes, htake2]

/-- C3 witness: writing `[3, 4]` at page 1 offset 1 of the zero-initialized
memory device and reading 2 bytes back at the same place returns `[3, 4]`. -/
theorem c3_write_read_roundtrip_witness :
    ∃ s₁ : DbFlash (Nat → Nat),
      DbFlash.write 4 memOps ⟨fun _ => 0, [9, 9, 9, 9]⟩ 1 1 [3, 4]
        = some (Except.ok (), s₁) ∧
      ∃ s₂ : DbFlash (Nat → Nat),
        DbFlash.read 4 memOps s₁ 1 1 [5, 5] = some (Except.ok (), [3, 4], s₂) :=
  c3_write_read_roundtrip 4 (fun _ => 0) [9, 9, 9, 9] 1 1 [3, 4] [5, 5]
    (by decide) rfl

/-- C7: for each of `erase`, `read` and `write`, a failing device operation is
returned to the caller as the very same error value of the device's own error
type `ε`, with exactly one device call issued (no retry) and no recovery. -/
theorem c7_error_passthrough {σ ε : Type} (PS : Nat) (dev : DeviceOps σ ε) (s : σ)
    (log : List DevEvent) (buf : List Nat) (page_id offset : Nat)
    (dataR dataW : List Nat) (e : ε) :
    (∀ s₁, dev.erase s (page_id * PS) (page_id * PS + PS) = (Except.error e, s₁) →
      DbFlash.erase PS (traceOps dev) ⟨(s, log), buf⟩ page_id
        = (Except.error e,
            ⟨(s₁, log ++ [DevEvent.erase (page_id * PS) (page_id * PS + PS)]), buf⟩)) ∧
    (∀ s₁, dataR.length ≤ PS →
      dev.read s (page_id * PS + offset) dataR.length = (Except.error e, s₁) →
      DbFlash.read PS (traceOps dev) ⟨(s, log), buf⟩ page_id offset dataR
        = some (Except.error e, dataR,
            ⟨(s₁, log ++ [DevEvent.read (page_id * PS + offset) dataR.length]), buf⟩)) ∧
    (∀ s₁, dataW.length ≤ PS →
      dev.write s (page_id * PS + offset) dataW = (Except.error e, s₁) →
      DbFlash.write PS (traceOps dev) ⟨(s, log), buf⟩ page_id offset dataW
        = some (Except.error e,
            ⟨(s₁, log ++ [DevEvent.write (page_id * PS + offset) dataW]),
              dataW ++ buf.drop dataW.length⟩)) := by
  refine ⟨?_, ?_, ?_⟩
  · intro s₁ h
    simp [DbFlash.erase, traceOps, h]
  · intro s₁ hlen h
    simp [DbFlash.read, hlen, traceOps, h]
  · intro s₁ hlen h
    have htake : (dataW ++ buf.drop dataW.length).take dataW.length = dataW :=
      take_append_length _ _
    simp [DbFlash.write, hlen, traceOps, htake, h]

/-- C7 witness: on the always-failing device (error value 7), each of the
three operations returns `Except.error 7` after exactly one device call. -/
theorem c7_error_passthrough_witness :
    DbFlash.erase 4 (traceOps failOps) ⟨((), []), [1, 2, 3, 4]⟩ 2
      = (Except.error 7, ⟨((), [DevEvent.erase 8 12]), [1, 2, 3, 4]⟩) ∧
    DbFlash.read 4 (traceOps failOps) ⟨((), []), [1, 2, 3, 4]⟩ 2 1 [5, 5]
      = some (Except.error 7, [5, 5], ⟨((), [DevEvent.read 9 2]), [1, 2, 3, 4]⟩) ∧
    DbFlash.write 4 (traceOps failOps) ⟨((), []), [1, 2, 3, 4]⟩ 2 1 [5, 5]
      = some (Except.error 7, ⟨((), [DevEvent.write 9 [5, 5]]), [5, 5, 3, 4]⟩) :=
  ⟨(c7_error_passthrough 4 failOps () [] [1, 2, 3, 4] 2 1 [5, 5] [5, 5] 7).1 () rfl,
   (c7_error_passthrough 4 failOps () [] [1, 2, 3, 4] 2 1 [5, 5] [5, 5] 7).2.1 ()
     (by decide) rfl,
   (c7_error_passthrough 4 failOps () [] [1, 2, 3, 4] 2 1 [5, 5] [5, 5] 7).2.2 ()
     (by decide) rfl⟩

/-- If the first `k` attempts starting at `i` fail and attempt `i + k`
succeeds, the card-init loop with enough fuel returns with the operating
frequency and exactly one more `set_config` call than before. -/
theorem card_init_loop_reaches (attempts : Nat → Bool) :
    ∀ (k fuel i : Nat) (s : CardState), (∀ j, j < k → attempts (i + j) = false) →
      attempts (i + k) = true → k < fuel →
      card_init_loop attempts fuel i s
        = some { frequency := operatingFrequency,
                 setConfigCount := s.setConfigCount + 1 } := by
  intro k
  induction k with
  | zero =>
      intro fuel i s _ hsucc hfuel
      cases fuel with
      | zero => omega
      | succ f =>
          rw [card_init_loop]
          simp only [Nat.add_zero] at hsucc
          simp [hsucc]
  | succ k ih =>
      intro fuel i s hfail hsucc hfuel
      cases fuel with
      | zero => omega
      | succ f =>
          have h0 : attempts i = false := by
            simpa using hfail 0 (Nat.succ_pos k)
          rw [card_init_loop, if_neg (by simp [h0])]
          refine ih f (i + 1) s ?_ ?_ (by omega)
          · intro j hj
            have harith : i + 1 + j = i + (j + 1) := by omega
            rw [harith]
            exact hfail (j + 1) (Nat.succ_lt_succ hj)
          · have harith : i + 1 + k = i + (k + 1) := by omega
            rw [harith]
            exact hsucc

/-- C5: if the first `k` card-init attempts fail and attempt `k + 1` succeeds,
the negotiation loop (with any sufficient fuel) returns ready, with the
configuration equal to the operating frequency — which differs from the
negotiation frequency — and with `set_config` called exactly once more. -/
theorem c5_negotiation_result (attempts : Nat → Bool) (k fuel : Nat) (s : CardState)
    (hfail : ∀ j, j < k → attempts j = false) (hsucc : attempts k = true)
    (hfuel : k < fuel) :
    card_init_loop attempts fuel 0 s
      = some { frequency := operatingFrequency,
               setConfigCount := s.setConfigCount + 1 } ∧
    operatingFrequency ≠ negotiationFrequency := by
  refine ⟨?_, by decide⟩
  exact card_init_loop_reaches attempts k fuel 0 s
    (fun j hj => by simpa using hfail j hj) (by simpa using hsucc) hfuel

/-- C5 witness: a negotiator failing attempts 0 and 1 and succeeding on
attempt 2 ends with the 25 MHz operating configuration, set exactly once,
starting from the 400 kHz construction-time configuration. -/
theorem c5_negotiation_result_witness :
    card_init_loop (fun i => decide (2 ≤ i)) 3 0 ⟨negotiationFrequency, 0⟩
      = some ⟨operatingFrequency, 1⟩ ∧
    operatingFrequency ≠ negotiationFrequency :=
  c5_negotiation_result (fun i => decide (2 ≤ i)) 2 3 ⟨negotiationFrequency, 0⟩
    (by decide) (by decide) (by decide)

/-- If the raw-settle loop terminates within its fuel, some attempt
succeeded. -/
theorem sd_init_loop_some_attempt (attempts : Nat → Bool) :
    ∀ (fuel i : Nat), (sd_init_loop attempts fuel i).isSome →
      ∃ n, attempts n = true := by
  intro fuel
  induction fuel with
  | zero => intro i h; simp [sd_init_loop] at h
  | succ f ih =>
      intro i h
      rw [sd_init_loop] at h
      by_cases ha : attempts i = true
      · exact ⟨i, ha⟩
      · rw [if_neg (by simp [ha])] at h
        exact ih (i + 1) h

/-- If some attempt at or after `i` succeeds, the raw-settle loop terminates
given enough fuel. -/
theorem sd_init_loop_of_success (attempts : Nat → Bool) :
    ∀ (k fuel i : Nat), attempts (i + k) = true → k < fuel →
      (sd_init_loop attempts fuel i).isSome := by
  intro k
  induction k with
  | zero =>
      intro fuel i hs hf
      cases fuel with
      | zero => omega
      | succ f =>
          rw [sd_init_loop]
          simp only [Nat.add_zero] at hs
          simp [hs]
  | succ k ih =>
      intro fuel i hs hf
      cases fuel with
      | zero => omega
      | succ f =>
          rw [sd_init_loop]
          by_cases ha : attempts i = true
          · simp [ha]
          · rw [if_neg (by simp [ha])]
            refine ih f (i + 1) ?_ (by omega)
            have harith : i + 1 + k = i + (k + 1) := by omega
            rw [harith]
            exact hs

/-- If the card-init loop terminates within its fuel, some attempt
succeeded. -/
theorem card_init_loop_some_attempt (attempts : Nat → Bool) :
    ∀ (fuel i : Nat) (s : CardState), (card_init_loop attempts fuel i s).isSome →
      ∃ n, attempts n = true := by
  intro fuel
  induction fuel with
  | zero => intro i s h; simp [card_init_loop] at h
  | succ f ih =>
      intro i s h
      rw [card_init_loop] at h
      by_cases ha : attempts i = true
      · exact ⟨i, ha⟩
      · rw [if_neg (by simp [ha])] at h
        exact ih (i + 1) s h

/-- If some attempt at or after `i` succeeds, the card-init loop terminates
given enough fuel. -/
theorem card_init_loop_of_success (attempts : Nat → Bool) :
    ∀ (k fuel i : Nat) (s : CardState), attempts (i + k) = true → k < fuel →
      (card_init_loop attempts fuel i s).isSome := by
  intro k
  induction k with
  | zero =>
      intro fuel i s hs hf
      cases fuel with
      | zero => omega
      | succ f =>
          rw [card_init_loop]
          simp only [Nat.add_zero] at hs
          simp [hs]
  | succ k ih =>
      intro fuel i s hs hf
      cases fuel with
      | zero => omega
      | succ f =>
          rw [card_init_loop]
          by_cases ha : attempts i = true
          · simp [ha]
          · rw [if_neg (by simp [ha])]
            refine ih f (i + 1) s ?_ (by omega)
            have harith : i + 1 + k = i + (k + 1) := by omega
            rw [harith]
            exact hs

/-- C6 counterexample: the delay between capability-handshake attempts is
`delay_ns(5000)`, i.e. 5000 ns = 5 µs, which is not a delay of tens of
milliseconds (not even 10 ms = 10000000 ns). -/
theorem c6_delay_counterexample :
    cardInitDelayNs = 5000 ∧ ¬ 10 * 1000000 ≤ cardInitDelayNs := by
  decide

/-- C6 (amended): both bring-up loops retry with a fixed delay — 10 ms for the
raw-settle phase, 5000 ns for the handshake phase — never fail outward, and
terminate exactly when some attempt succeeds. -/
theorem c6_retry_termination (attempts1 attempts2 : Nat → Bool) (s : CardState) :
    sdInitDelayNs = 10 * 1000000 ∧ cardInitDelayNs = 5000 ∧
    ((∃ fuel, (sd_init_loop attempts1 fuel 0).isSome) ↔ ∃ n, attempts1 n = true) ∧
    ((∃ fuel, (card_init_loop attempts2 fuel 0 s).isSome) ↔
      ∃ n, attempts2 n = true) := by
  refine ⟨rfl, rfl, ⟨?_, ?_⟩, ⟨?_, ?_⟩⟩
  · rintro ⟨fuel, h⟩
    exact sd_init_loop_some_attempt attempts1 fuel 0 h
  · rintro ⟨n, hn⟩
    exact ⟨n + 1, sd_init_loop_of_success attempts1 n (n + 1) 0
      (by simpa using hn) (Nat.lt_succ_self n)⟩
  · rintro ⟨fuel, h⟩
    exact card_init_loop_some_attempt attempts2 fuel 0 s h
  · rintro ⟨n, hn⟩
    exact ⟨n + 1, card_init_loop_of_success attempts2 n (n + 1) 0 s
      (by simpa using hn) (Nat.lt_succ_self n)⟩
